import Mathlib

/-!
Verification of the optimistic-update semantics described by the
specification of the ReactLearn repository.

The repository's code samples (notably the `useOptimistic` examples in the
React 19 module) delegate the coordination of speculative state to the
React library: the coordinator itself (`begin`/`end`/overlay fold) is a
conceptual pattern of the specification with no implementation under the
repository's own sources.  We therefore model the coordinator from the
specification's words, and embed the concrete reducers (the like-toggle
reducer, the todo reducer, the chat append reducer and the cart quantity
handler) directly from the source file `useOptimistic Examples`
(src/unnamed/part_019).
-/

namespace ReactLearn

/-- Modelled from the spec: the Optimistic Update Coordinator state, which is
not implemented in the repository.  `auth` is the Authoritative Store (the
last confirmed value), `pending` is the Pending Operation Tracker: the
in-flight speculative mutations `(token, delta)` in issuance order, and
`nextToken` is the next fresh token (tokens are never reused). -/
structure Coordinator (T D : Type) where
  auth : T
  pending : List (Nat × D)
  nextToken : Nat
deriving DecidableEq

/-- Modelled from the spec: `begin(delta) -> token` appends a new pending
mutation and returns a unique token. -/
def begin {T D : Type} (c : Coordinator T D) (d : D) : Coordinator T D × Nat :=
  ({ auth := c.auth
     pending := c.pending ++ [(c.nextToken, d)]
     nextToken := c.nextToken + 1 },
   c.nextToken)

/-- Modelled from the spec: `end(token)` removes the mutation matching
`token`; a no-op (not an error) if already removed or unknown.  Named
`endOp` because `end` is reserved in Lean. -/
def endOp {T D : Type} (c : Coordinator T D) (t : Nat) : Coordinator T D :=
  { c with pending := c.pending.filter (fun p => p.1 != t) }

/-- Modelled from the spec: the Optimistic Overlay, the pure fold of the
authoritative state over the still-pending deltas in issuance order,
recomputed on demand and never stored. -/
def overlay {T D : Type} (apply : T → D → T) (c : Coordinator T D) : T :=
  c.pending.foldl (fun s p => apply s p.2) c.auth

/-- Modelled from the spec: the fold contract written as the spec states it:
given `S` and ordered deltas `[d1, d2, ...]`, produce `dn(...d2(d1(S)))`. -/
def applyAll {T D : Type} (apply : T → D → T) : T → List D → T
  | s, [] => s
  | s, d :: ds => applyAll apply (apply s d) ds

/-- Modelled from the spec: the Reconciler's Issued → Confirmed transition:
on success, apply the server-returned canonical value to the Authoritative
Store, then remove the pending entry. -/
def confirm {T D : Type} (c : Coordinator T D) (t : Nat) (s1 : T) : Coordinator T D :=
  { endOp c t with auth := s1 }

/-- Modelled from the spec: the Reconciler's Issued → Reverted transition:
on failure the Authoritative Store is left untouched and the pending entry
is removed. -/
def revert {T D : Type} (c : Coordinator T D) (t : Nat) : Coordinator T D :=
  endOp c t

/-- Modelled from the spec: the states of the coordinator reachable from an
initial authoritative value by the only transitions the spec allows:
`begin`, Issued → Confirmed, and Issued → Reverted.  No other transitions
exist; in particular a mutation is never retried automatically. -/
inductive Reachable {T D : Type} : Coordinator T D → Prop
  | init (s : T) : Reachable ⟨s, [], 0⟩
  | step_begin {c : Coordinator T D} (d : D) :
      Reachable c → Reachable (begin c d).1
  | step_confirm {c : Coordinator T D} (t : Nat) (s1 : T) :
      Reachable c → Reachable (confirm c t s1)
  | step_revert {c : Coordinator T D} (t : Nat) :
      Reachable c → Reachable (revert c t)

/-! ## Source-embedded data model and reducers (src/unnamed/part_019) -/

/-- The `Post` interface of Example 1 (Like Button). -/
structure Post where
  id : String
  title : String
  likes : Int
  isLiked : Bool
deriving DecidableEq

/-- The `useOptimistic` reducer of `LikeButton` in Example 1:
`(currentPost, newLiked) => ({ ...currentPost, isLiked: newLiked,
likes: newLiked ? currentPost.likes + 1 : currentPost.likes - 1 })`. -/
def likeReducer (currentPost : Post) (newLiked : Bool) : Post :=
  { currentPost with
    isLiked := newLiked
    likes := if newLiked then currentPost.likes + 1 else currentPost.likes - 1 }

/-- The `Todo` interface of Example 2.  The optional field `pending?` is an
`Option Bool`. -/
structure Todo where
  id : String
  text : String
  completed : Bool
  pending : Option Bool
deriving DecidableEq

/-- The action passed to the `OptimisticTodoList` reducer:
`{ type: 'toggle' | 'delete'; id: string }`.  The type is kept as a string
so that the reducer's `default` branch is representable. -/
structure TodoAction where
  type : String
  id : String
deriving DecidableEq

/-- The `useOptimistic` reducer of `OptimisticTodoList` in Example 2:
`toggle` maps over the list flipping `completed` and setting `pending` on
the matching id; `delete` filters out the matching id; the `default` branch
returns the state unchanged. -/
def todoReducer (state : List Todo) (action : TodoAction) : List Todo :=
  if action.type = "toggle" then
    state.map (fun todo =>
      if todo.id = action.id then
        { todo with completed := !todo.completed, pending := some true }
      else todo)
  else if action.type = "delete" then
    state.filter (fun todo => todo.id != action.id)
  else
    state

/-- The `Message` interface of Example 3 (Chat). -/
structure Message where
  id : String
  text : String
  sender : String
  status : Option String
deriving DecidableEq

/-- The `useOptimistic` reducer of `ChatInput` in Example 3:
`(state, newMessage) => [...state, newMessage]`. -/
def chatReducer (state : List Message) (newMessage : Message) : List Message :=
  state ++ [newMessage]

/-- The `CartItem` interface of Example 4 (Shopping Cart).  JavaScript
numbers are modelled as integers (the sample only ever adds integer
deltas). -/
structure CartItem where
  id : String
  name : String
  price : Int
  quantity : Int
deriving DecidableEq

/-- The `useOptimistic` reducer of `CartItem` in Example 4:
`(current, newQuantity) => ({ ...current, quantity: newQuantity })`. -/
def cartReducer (current : CartItem) (newQuantity : Int) : CartItem :=
  { current with quantity := newQuantity }

/-- `CartItem.handleQuantityChange` from Example 4: computes
`newQuantity = Math.max(0, optimisticItem.quantity + delta)`, issues the
optimistic update with it, and sends the same `newQuantity` to the server
(`updateCartQuantity(item.id, newQuantity)` / `onUpdate(item.id,
newQuantity)`).  Returns the optimistically updated item together with the
quantity sent to the server. -/
def handleQuantityChange (optimisticItem : CartItem) (delta : Int) : CartItem × Int :=
  let newQuantity := max 0 (optimisticItem.quantity + delta)
  (cartReducer optimisticItem newQuantity, newQuantity)

/-! ## Claim theorems -/

/-- Claim C1, reversion on failure: for every authoritative state `S0` and
delta `d`, after `begin(d)` the overlay equals `d(S0)`; on failure the
Authoritative Store is left unchanged, and after the pending entry is
removed via `end(token)` the overlay equals exactly `S0` again. -/
theorem reversion_on_failure {T D : Type} (apply : T → D → T) (S0 : T) (d : D) (n : Nat) :
    overlay apply (begin (⟨S0, [], n⟩ : Coordinator T D) d).1 = apply S0 d ∧
    (revert (begin (⟨S0, [], n⟩ : Coordinator T D) d).1
      (begin (⟨S0, [], n⟩ : Coordinator T D) d).2).auth = S0 ∧
    overlay apply (revert (begin (⟨S0, [], n⟩ : Coordinator T D) d).1
      (begin (⟨S0, [], n⟩ : Coordinator T D) d).2) = S0 := by
  refine ⟨rfl, rfl, ?_⟩
  simp [begin, revert, endOp, overlay]

/-- Claim C2, confirmation consistency: after `begin(d)` followed by a
successful resolution carrying canonical value `S1`, the Reconciler applies
`S1` to the Authoritative Store and removes the pending entry, so both the
Authoritative Store and the overlay equal `S1`. -/
theorem confirmation_consistency {T D : Type} (apply : T → D → T) (S0 S1 : T) (d : D) (n : Nat) :
    (confirm (begin (⟨S0, [], n⟩ : Coordinator T D) d).1
      (begin (⟨S0, [], n⟩ : Coordinator T D) d).2 S1).auth = S1 ∧
    overlay apply (confirm (begin (⟨S0, [], n⟩ : Coordinator T D) d).1
      (begin (⟨S0, [], n⟩ : Coordinator T D) d).2 S1) = S1 := by
  refine ⟨rfl, ?_⟩
  simp [begin, confirm, endOp, overlay]

/-- Claim C3, overlay fold correctness: for every authoritative state `S`
and ordered pending deltas `[d1, ..., dn]`, the overlay equals
`dn(...d2(d1(S)))` — it is the pure fold of `S` over the delta list and
depends on nothing else. -/
theorem overlay_fold_correct {T D : Type} (apply : T → D → T) (S : T)
    (pend : List (Nat × D)) (n : Nat) :
    overlay apply ⟨S, pend, n⟩ = applyAll apply S (pend.map Prod.snd) := by
  induction pend generalizing S with
  | nil => rfl
  | cons p ps ih =>
    simpa [overlay, applyAll] using ih (apply S p.2)

/-- Claim C4, order preservation: after `begin(d1)`, `begin(d2)`,
`begin(d3)` the overlay equals `fold(S, [d1, d2, d3])` in issuance order;
and retiring pending entries commutes, so the order in which the
asynchronous operations later resolve cannot change the overlay. -/
theorem order_preservation {T D : Type} (apply : T → D → T) (S : T) (d1 d2 d3 : D) (n : Nat) :
    overlay apply (begin (begin (begin (⟨S, [], n⟩ : Coordinator T D) d1).1 d2).1 d3).1
      = applyAll apply S [d1, d2, d3] ∧
    ∀ c : Coordinator T D, ∀ a b : Nat,
      revert (revert c a) b = revert (revert c b) a := by
  constructor
  · rfl
  · intro c a b
    simp only [revert, endOp, List.filter_filter]
    congr 1
    apply List.filter_congr
    intro x _
    exact Bool.and_comm _ _

/-- Claim C5, empty-pending identity: when the Pending Operation Tracker
holds no pending mutations, the overlay equals the authoritative state. -/
theorem empty_pending_identity {T D : Type} (apply : T → D → T) (c : Coordinator T D)
    (h : c.pending = []) : overlay apply c = c.auth := by
  simp [overlay, h]

/-- Witness for claim C5 at a concrete coordinator with empty pending list. -/
theorem empty_pending_identity_witness :
    (⟨(5 : Int), [], 0⟩ : Coordinator Int Int).pending = [] ∧
    overlay (fun s d => s + d) (⟨(5 : Int), [], 0⟩ : Coordinator Int Int) = 5 :=
  ⟨rfl, empty_pending_identity (fun s d => s + d) ⟨5, [], 0⟩ rfl⟩

/-- Claim C6, idempotent cleanup: calling `end(token)` twice has the same
effect on the tracker as calling it once, and `end` on an unknown or
already-removed token is a silent no-op. -/
theorem idempotent_cleanup {T D : Type} (c : Coordinator T D) (t : Nat) :
    endOp (endOp c t) t = endOp c t ∧
    (t ∉ c.pending.map Prod.fst → endOp c t = c) := by
  constructor
  · simp [endOp, List.filter_filter]
  · intro h
    simp only [endOp]
    have hp : c.pending.filter (fun p => p.1 != t) = c.pending := by
      apply List.filter_eq_self.mpr
      intro p hp
      simp only [bne_iff_ne, ne_eq]
      intro heq
      exact h (List.mem_map.mpr ⟨p, hp, heq⟩)
    rw [hp]

/-- Witness for claim C6 at a concrete coordinator and an unknown token. -/
theorem idempotent_cleanup_witness :
    endOp (endOp (⟨(5 : Int), [(0, (2 : Int))], 1⟩ : Coordinator Int Int) 7) 7
      = endOp (⟨(5 : Int), [(0, (2 : Int))], 1⟩ : Coordinator Int Int) 7 ∧
    endOp (⟨(5 : Int), [(0, (2 : Int))], 1⟩ : Coordinator Int Int) 7
      = (⟨(5 : Int), [(0, (2 : Int))], 1⟩ : Coordinator Int Int) :=
  ⟨(idempotent_cleanup _ 7).1, (idempotent_cleanup _ 7).2 (by decide)⟩

/-- Claim C7, overlapping-toggle composition: issuing a like then an unlike
(each click reading the current overlay, as `handleLike` does) before
either resolves yields overlay `d2(d1(S0))`, the later delta applying on
top of the earlier one, and that overlay equals `S0` again. -/
theorem overlapping_toggle_composition (S0 : Post) (n : Nat) :
    let c0 : Coordinator Post Bool := ⟨S0, [], n⟩
    let b1 := begin c0 (!(overlay likeReducer c0).isLiked)
    let b2 := begin b1.1 (!(overlay likeReducer b1.1).isLiked)
    overlay likeReducer b2.1
      = likeReducer (likeReducer S0 (!S0.isLiked)) (!(likeReducer S0 (!S0.isLiked)).isLiked) ∧
    overlay likeReducer b2.1 = S0 := by
  refine ⟨rfl, ?_⟩
  cases S0 with
  | mk id title likes isLiked =>
    cases isLiked <;> simp [begin, overlay, likeReducer]

/-- Claim C8, exactly-once retirement: in every reachable coordinator state
the pending tokens are distinct (so no pending mutation is applied to the
overlay twice) and strictly below `nextToken` (so a retired token can never
be re-issued); retiring a token by either transition removes every entry
bearing it while preserving all other pending entries. -/
theorem exactly_once_retirement {T D : Type} (c : Coordinator T D) (h : Reachable c) :
    (c.pending.map Prod.fst).Nodup ∧
    (∀ p ∈ c.pending, p.1 < c.nextToken) ∧
    (∀ t, t ∉ (revert c t).pending.map Prod.fst ∧
          ∀ s1, t ∉ (confirm c t s1).pending.map Prod.fst) ∧
    (∀ t, ∀ p ∈ c.pending, p.1 ≠ t → p ∈ (revert c t).pending) := by
  have filt : ∀ (l : List (Nat × D)) (t : Nat),
      t ∉ (l.filter (fun p => p.1 != t)).map Prod.fst := by
    intro l t hmem
    obtain ⟨p, hp, hpt⟩ := List.mem_map.mp hmem
    have h2 := (List.mem_filter.mp hp).2
    rw [hpt] at h2
    simp at h2
  have main : (c.pending.map Prod.fst).Nodup ∧ ∀ p ∈ c.pending, p.1 < c.nextToken := by
    induction h with
    | init s => simp
    | step_begin d hr ih =>
      obtain ⟨hnd, hlt⟩ := ih
      constructor
      · simp only [begin, List.map_append, List.map_cons, List.map_nil]
        rw [List.nodup_append]
        refine ⟨hnd, List.nodup_singleton _, ?_⟩
        intro x hx hx2
        simp only [List.mem_singleton] at hx2
        obtain ⟨p, hp, hpx⟩ := List.mem_map.mp hx
        have := hlt p hp
        omega
      · intro p hp
        simp only [begin] at hp ⊢
        rcases List.mem_append.mp hp with h1 | h1
        · exact Nat.lt_succ_of_lt (hlt p h1)
        · rw [List.mem_singleton.mp h1]
          exact Nat.lt_succ_self _
    | step_confirm t s1 hr ih =>
      obtain ⟨hnd, hlt⟩ := ih
      refine ⟨List.Nodup.sublist (List.Sublist.map _ (List.filter_sublist _)) hnd, ?_⟩
      intro p hp
      exact hlt p (List.mem_filter.mp hp).1
    | step_revert t hr ih =>
      obtain ⟨hnd, hlt⟩ := ih
      refine ⟨List.Nodup.sublist (List.Sublist.map _ (List.filter_sublist _)) hnd, ?_⟩
      intro p hp
      exact hlt p (List.mem_filter.mp hp).1
  refine ⟨main.1, main.2, ?_, ?_⟩
  · intro t
    exact ⟨filt c.pending t, fun s1 => filt c.pending t⟩
  · intro t p hp hne
    exact List.mem_filter.mpr ⟨hp, by simpa using hne⟩

/-- Witness for claim C8 at the concrete reachable state obtained by one
`begin` from an initial authoritative value. -/
theorem exactly_once_retirement_witness :
    (((⟨(5 : Int), [(0, (7 : Int))], 1⟩ : Coordinator Int Int).pending.map Prod.fst).Nodup ∧
     (∀ p ∈ (⟨(5 : Int), [(0, (7 : Int))], 1⟩ : Coordinator Int Int).pending,
        p.1 < (⟨(5 : Int), [(0, (7 : Int))], 1⟩ : Coordinator Int Int).nextToken) ∧
     (∀ t, t ∉ (revert (⟨(5 : Int), [(0, (7 : Int))], 1⟩ : Coordinator Int Int) t).pending.map
            Prod.fst ∧
          ∀ s1, t ∉ (confirm (⟨(5 : Int), [(0, (7 : Int))], 1⟩ : Coordinator Int Int)
            t s1).pending.map Prod.fst) ∧
     (∀ t, ∀ p ∈ (⟨(5 : Int), [(0, (7 : Int))], 1⟩ : Coordinator Int Int).pending,
        p.1 ≠ t → p ∈ (revert (⟨(5 : Int), [(0, (7 : Int))], 1⟩ : Coordinator Int Int)
          t).pending)) :=
  exactly_once_retirement _ (Reachable.step_begin 7 (Reachable.init 5))

/-- Claim C9, frame property of the todo reducer: `toggle` changes only the
todo whose id matches (flipping `completed` and setting `pending` to true)
and leaves every other todo unchanged in place; `delete` removes exactly
the todos with the matching id, preserving the relative order of the rest;
any other action type returns the state unchanged. -/
theorem todo_reducer_frame (state : List Todo) (a : TodoAction) :
    (a.type = "toggle" →
      List.Forall₂ (fun todo r =>
        (todo.id = a.id →
          r = { todo with completed := !todo.completed, pending := some true }) ∧
        (todo.id ≠ a.id → r = todo)) state (todoReducer state a)) ∧
    (a.type = "delete" →
      (∀ t ∈ todoReducer state a, t.id ≠ a.id) ∧
      (∀ t ∈ state, t.id ≠ a.id → t ∈ todoReducer state a) ∧
      (todoReducer state a).Sublist state) ∧
    (a.type ≠ "toggle" → a.type ≠ "delete" → todoReducer state a = state) := by
  refine ⟨?_, ?_, ?_⟩
  · intro h
    simp only [todoReducer, h, if_pos]
    rw [List.forall₂_map_right_iff, List.forall₂_same]
    intro todo _
    by_cases hid : todo.id = a.id <;> simp [hid]
  · intro h
    have hto : ¬ a.type = "toggle" := by rw [h]; decide
    simp only [todoReducer, if_neg hto, h, if_pos]
    refine ⟨?_, ?_, List.filter_sublist _⟩
    · intro t ht
      have h2 := (List.mem_filter.mp ht).2
      simpa using h2
    · intro t ht hne
      exact List.mem_filter.mpr ⟨ht, by simpa using hne⟩
  · intro h1 h2
    simp [todoReducer, h1, h2]

/-- Witness for claim C9 at a concrete two-todo list, a toggle action and an
unrecognised action type. -/
theorem todo_reducer_frame_witness :
    List.Forall₂ (fun todo r =>
        (todo.id = (⟨"toggle", "1"⟩ : TodoAction).id →
          r = { todo with completed := !todo.completed, pending := some true }) ∧
        (todo.id ≠ (⟨"toggle", "1"⟩ : TodoAction).id → r = todo))
      [⟨"1", "a", false, none⟩, ⟨"2", "b", true, none⟩]
      (todoReducer [⟨"1", "a", false, none⟩, ⟨"2", "b", true, none⟩] ⟨"toggle", "1"⟩) ∧
    todoReducer [⟨"1", "a", false, none⟩, ⟨"2", "b", true, none⟩] ⟨"noop", "1"⟩
      = [⟨"1", "a", false, none⟩, ⟨"2", "b", true, none⟩] :=
  ⟨(todo_reducer_frame [⟨"1", "a", false, none⟩, ⟨"2", "b", true, none⟩] ⟨"toggle", "1"⟩).1 rfl,
   (todo_reducer_frame [⟨"1", "a", false, none⟩, ⟨"2", "b", true, none⟩] ⟨"noop", "1"⟩).2.2
     (by decide) (by decide)⟩

/-- Claim C10, cart quantity non-negativity: `handleQuantityChange` uses
`max(0, quantity + delta)` both for the optimistic update and for the value
sent to the server, so the displayed optimistic quantity is never negative,
and decrementing at quantity 0 leaves it at 0. -/
theorem cart_quantity_nonneg (item : CartItem) (delta : Int) :
    0 ≤ (handleQuantityChange item delta).1.quantity ∧
    (handleQuantityChange item delta).2 = max 0 (item.quantity + delta) ∧
    (handleQuantityChange item delta).1.quantity = (handleQuantityChange item delta).2 ∧
    (item.quantity = 0 → (handleQuantityChange item (-1)).1.quantity = 0) := by
  refine ⟨le_max_left 0 _, rfl, rfl, ?_⟩
  intro h
  simp [handleQuantityChange, cartReducer, h]

/-- Witness for claim C10 at a concrete cart item with quantity 0. -/
theorem cart_quantity_nonneg_witness :
    (⟨"i", "n", 3, 0⟩ : CartItem).quantity = 0 ∧
    0 ≤ (handleQuantityChange (⟨"i", "n", 3, 0⟩ : CartItem) (-1)).1.quantity ∧
    (handleQuantityChange (⟨"i", "n", 3, 0⟩ : CartItem) (-1)).1.quantity = 0 :=
  ⟨rfl, (cart_quantity_nonneg ⟨"i", "n", 3, 0⟩ (-1)).1,
    (cart_quantity_nonneg ⟨"i", "n", 3, 0⟩ (-1)).2.2.2 rfl⟩

end ReactLearn
